import Mathlib

/-!
Shallow embedding of the order-total and cart-mutation core of the
django-shop repository (apps `cart` and `staff`).

The data model follows `src/cart/models.py`: `Product.price` and
`Product.stock` and `Delivery.cost` are plain `IntegerField`s (embedded as
`Int`), `OrderItem.quantity` is a `PositiveIntegerField` (a non-negative
database integer, embedded as `Nat`), and an `Order` holds a list of
items, an optional delivery, and the `ordered` / `ordered_date` lifecycle
fields.  The arithmetic getters (`get_raw_subtotal`, `get_raw_total`,
`get_raw_total_item_price`) are transcribed directly from
`src/cart/models.py`.

The repository's `cart/views.py` and `cart/utils.py` are not present under
`src/`; the cart-mutation operations (`add` via the product-detail view,
`increase`, `decrease`, `place` via the confirm-order view) are therefore
modelled from the specification, constrained by the behaviour asserted in
`src/cart/tests.py`.  The validation half of `add` is transcribed from
`AddToCartForm` in `src/cart/forms.py`, which is present.
-/

/-- Model of `cart.models.Product` (the fields the core reads): `price` and `stock`
are Django `IntegerField`s, hence `Int`. -/
structure Product where
  price : Int
  stock : Int
deriving Repr, DecidableEq

/-- Model of `cart.models.Delivery`: a named shipping tier with an integer cost. -/
structure Delivery where
  type : String
  cost : Int
deriving Repr, DecidableEq

/-- Model of `cart.models.OrderItem`: primary key, referenced product, quantity
(`PositiveIntegerField`, a non-negative database integer), and the chosen
colour/size variation ids (opaque to the core). -/
structure OrderItem where
  pk : Nat
  product : Product
  quantity : Nat
  colour : Nat
  size : Nat
deriving Repr, DecidableEq

/-- Model of `cart.models.Order` (the fields the core reads and writes): the item
collection (`related_name='items'`), the optional delivery choice, and the
lifecycle fields `ordered` / `ordered_date`. -/
structure Order where
  items : List OrderItem
  delivery : Option Delivery
  ordered : Bool
  ordered_date : Option Nat
deriving Repr, DecidableEq

/-- Transcription of `OrderItem.get_raw_total_item_price`: `self.quantity * self.product.price`. -/
def OrderItem.get_raw_total_item_price (i : OrderItem) : Int :=
  (i.quantity : Int) * i.product.price

/-- Transcription of `Order.get_raw_subtotal`: starts at 0 and accumulates
`get_raw_total_item_price` over `self.items.all()`. -/
def Order.get_raw_subtotal (o : Order) : Int :=
  o.items.foldl (fun total order_item => total + order_item.get_raw_total_item_price) 0

/-- Transcription of `Order.get_raw_total`: the subtotal, plus `self.delivery.cost` when a
delivery is attached. -/
def Order.get_raw_total (o : Order) : Int :=
  match o.delivery with
  | none => o.get_raw_subtotal
  | some d => o.get_raw_subtotal + d.cost

/-- The error taxonomy of the cart-mutation layer (spec §7, without
`InvalidAmount`, for which no check exists in the source — see the staff
product-form model below). -/
inductive CartError where
  | InvalidQuantity
  | InsufficientStock
  | NotFound
  | AlreadyPlaced
deriving Repr, DecidableEq

/-- Modelled from the spec: the success half of `add` — the save of the
validated form performed by `ProductDetailView` in the absent
`cart/views.py` — which per spec §4.5 and
`test_form_valid_creates_new_cart_item` always appends a brand-new
`OrderItem` (never merging with an existing identical
product/colour/size entry).  The validation half is transcribed from
`AddToCartForm` in `src/cart/forms.py`, which is present: the `quantity`
form field carries `min_value=1` (field validation runs first), and
`clean` rejects when `product.stock < quantity`.  On failure the order is
returned untouched: validation precedes any save. -/
def addToCart (o : Order) (p : Product) (colour size : Nat) (quantity : Int)
    (newPk : Nat) : Order × Option CartError :=
  if quantity < 1 then (o, some .InvalidQuantity)
  else if p.stock < quantity then (o, some .InsufficientStock)
  else ({ o with items := o.items ++ [⟨newPk, p, quantity.toNat, colour, size⟩] }, none)

/-- Modelled from the spec: `increase(order, line_item_id)` lives in the
absent `cart/views.py` (`IncreaseQuantityView`).  Per spec §4.5 and
`IncreaseQuantityViewTest`: look up the item by identifier; `NotFound` if
absent; otherwise increment its quantity by 1 — no stock check. -/
def increase (o : Order) (pk : Nat) : Order × Option CartError :=
  match o.items.find? (fun i => i.pk == pk) with
  | none => (o, some .NotFound)
  | some _ =>
      ({ o with items := (o.items.map
          (fun i => if i.pk == pk then { i with quantity := i.quantity + 1 } else i)) },
       none)

/-- Modelled from the spec: `decrease(order, line_item_id)` lives in the
absent `cart/views.py` (`DecreaseQuantityView`).  Per spec §4.5 and
`DecreaseQualityViewTest`: look up the item by identifier; `NotFound` if
absent; decrement its quantity by 1; if the result is 0 the item is
deleted from the order in the same operation. -/
def decrease (o : Order) (pk : Nat) : Order × Option CartError :=
  match o.items.find? (fun i => i.pk == pk) with
  | none => (o, some .NotFound)
  | some it =>
      if it.quantity - 1 == 0 then
        ({ o with items := o.items.eraseP (fun i => i.pk == pk) }, none)
      else
        ({ o with items := (o.items.map
            (fun i => if i.pk == pk then { i with quantity := i.quantity - 1 } else i)) },
         none)

/-- Modelled from the spec: `place(timestamp)` is performed by the absent
`cart/views.py` (`ConfirmOrderView`) over the `ordered` / `ordered_date`
fields of `src/cart/models.py`.  Per spec §4.4 and
`ConfirmOrderViewTest`: fails with `AlreadyPlaced` when `ordered` is
already true (leaving the order untouched); otherwise sets
`ordered = true` and stamps `ordered_date`. -/
def place (o : Order) (t : Nat) : Order × Option CartError :=
  if o.ordered then (o, some .AlreadyPlaced)
  else ({ o with ordered := true, ordered_date := some t }, none)

/-- Folding `+ f i` from an accumulator equals the accumulator plus the sum
of the mapped list. -/
theorem foldl_add_eq_sum_map (f : OrderItem → Int) :
    ∀ (l : List OrderItem) (a : Int),
      l.foldl (fun t i => t + f i) a = a + (l.map f).sum := by
  intro l
  induction l with
  | nil => intro a; simp
  | cons x xs ih =>
      intro a
      simp only [List.foldl_cons, List.map_cons, List.sum_cons, ih, add_assoc]

/-- C1: For every Order, `get_raw_total` equals the sum over its items of
quantity times the product's unit price, plus the delivery cost when a
delivery is attached and nothing otherwise; and `get_raw_subtotal` of an
Order with no items is 0. -/
theorem raw_totals_match_spec (o : Order) :
    o.get_raw_total
      = (o.items.map (fun i => (i.quantity : Int) * i.product.price)).sum
        + (match o.delivery with | some d => d.cost | none => 0)
    ∧ Order.get_raw_subtotal { o with items := [] } = 0 := by
  constructor
  · have hsub : o.get_raw_subtotal
        = (o.items.map (fun i => (i.quantity : Int) * i.product.price)).sum := by
      unfold Order.get_raw_subtotal
      simp only [OrderItem.get_raw_total_item_price]
      rw [foldl_add_eq_sum_map (fun i => (i.quantity : Int) * i.product.price) o.items 0]
      simp
    unfold Order.get_raw_total
    cases h : o.delivery with
    | none => simp [hsub]
    | some d => simp [hsub]
  · unfold Order.get_raw_subtotal
    simp

/-- An order as freshly created by `Order.objects.create()`: no items, no
delivery, `ordered = False`, `ordered_date = NULL`. -/
def emptyOrder : Order := ⟨[], none, false, none⟩

/-- The product used by the concrete witnesses: price 100, stock 5. -/
def witnessProduct : Product := ⟨100, 5⟩

/-- C3: `add` fails with `InsufficientStock` exactly when the requested
quantity exceeds the product's stock, fails with `InvalidQuantity` when
the quantity is below 1, and every failure leaves the order's item
collection completely unchanged. -/
theorem add_failure_spec (o : Order) (p : Product) (c s : Nat) (q : Int) (pk : Nat)
    (hstock : 0 ≤ p.stock) :
    ((addToCart o p c s q pk).2 = some CartError.InvalidQuantity ↔ q < 1) ∧
    ((addToCart o p c s q pk).2 = some CartError.InsufficientStock ↔ p.stock < q) ∧
    (∀ e, (addToCart o p c s q pk).2 = some e → (addToCart o p c s q pk).1 = o) := by
  unfold addToCart
  by_cases h1 : q < 1
  · have hns : ¬ p.stock < q := by omega
    simp [h1, hns]
  · by_cases h2 : p.stock < q
    · simp [h1, h2]
    · simp [h1, h2]

/-- Witness for C3: adding quantity 10 of a stock-5 product to the empty
order reports `InsufficientStock` and leaves the order unchanged. -/
theorem add_failure_spec_witness :
    (0 : Int) ≤ witnessProduct.stock ∧
    (((addToCart emptyOrder witnessProduct 0 0 10 1).2 = some CartError.InvalidQuantity
        ↔ (10 : Int) < 1) ∧
     ((addToCart emptyOrder witnessProduct 0 0 10 1).2 = some CartError.InsufficientStock
        ↔ witnessProduct.stock < 10) ∧
     (∀ e, (addToCart emptyOrder witnessProduct 0 0 10 1).2 = some e →
        (addToCart emptyOrder witnessProduct 0 0 10 1).1 = emptyOrder)) :=
  ⟨by decide, add_failure_spec emptyOrder witnessProduct 0 0 10 1 (by decide)⟩

/-- C5: placing an unplaced order succeeds, sets `ordered` and stamps
`ordered_date` with the given timestamp; a second `place` on the result
fails with `AlreadyPlaced` and `ordered_date` keeps its first-call
value. -/
theorem place_spec (o : Order) (t1 t2 : Nat) (h : o.ordered = false) :
    (place o t1).2 = none ∧
    (place o t1).1.ordered = true ∧
    (place o t1).1.ordered_date = some t1 ∧
    (place (place o t1).1 t2).2 = some CartError.AlreadyPlaced ∧
    (place (place o t1).1 t2).1.ordered_date = some t1 := by
  unfold place
  simp [h]

/-- A `find?` hit is a member of the list. -/
theorem mem_of_find?_hit {l : List OrderItem} {p : OrderItem → Bool} {a : OrderItem}
    (h : l.find? p = some a) : a ∈ l := by
  induction l with
  | nil => simp [List.find?] at h
  | cons x xs ih =>
      rw [List.find?] at h
      cases hp : p x with
      | true => rw [hp] at h; simp at h; simp [h]
      | false => rw [hp] at h; simp at h; exact List.mem_cons_of_mem x (ih h)

/-- A `find?` hit satisfies the predicate. -/
theorem pred_of_find?_hit {l : List OrderItem} {p : OrderItem → Bool} {a : OrderItem}
    (h : l.find? p = some a) : p a = true := by
  induction l with
  | nil => simp [List.find?] at h
  | cons x xs ih =>
      rw [List.find?] at h
      cases hp : p x with
      | true => rw [hp] at h; simp at h; rw [← h]; exact hp
      | false => rw [hp] at h; simp at h; exact ih h

/-- Erasing by a predicate that some member satisfies shortens the list by
exactly one. -/
theorem length_eraseP_hit {l : List OrderItem} {p : OrderItem → Bool} {a : OrderItem}
    (ha : a ∈ l) (hp : p a = true) : (l.eraseP p).length + 1 = l.length := by
  induction l with
  | nil => cases ha
  | cons x xs ih =>
      cases hx : p x with
      | true => simp [List.eraseP_cons, hx]
      | false =>
          have hax : a ∈ xs := by
            cases List.mem_cons.mp ha with
            | inl h => rw [h] at hp; rw [hp] at hx; cases hx
            | inr h => exact h
          simp [List.eraseP_cons, hx]
          exact ih hax

/-- A member that fails the predicate survives `eraseP`. -/
theorem mem_eraseP_of_pred_false {l : List OrderItem} {p : OrderItem → Bool} {b : OrderItem}
    (hb : b ∈ l) (hp : p b = false) : b ∈ l.eraseP p := by
  induction l with
  | nil => cases hb
  | cons x xs ih =>
      cases hx : p x with
      | true =>
          simp only [List.eraseP_cons, hx, cond_true]
          cases List.mem_cons.mp hb with
          | inl h => rw [h] at hp; rw [hp] at hx; cases hx
          | inr h => exact h
      | false =>
          simp only [List.eraseP_cons, hx, cond_false]
          cases List.mem_cons.mp hb with
          | inl h => rw [h]; exact List.mem_cons_self x _
          | inr h => exact List.mem_cons_of_mem x (ih h)

/-- Every element of `eraseP` comes from the original list. -/
theorem mem_of_mem_eraseP_list {l : List OrderItem} {p : OrderItem → Bool} {b : OrderItem}
    (hb : b ∈ l.eraseP p) : b ∈ l := by
  induction l with
  | nil => simp [List.eraseP_nil] at hb
  | cons x xs ih =>
      cases hx : p x with
      | true =>
          rw [List.eraseP_cons, hx] at hb
          exact List.mem_cons_of_mem x hb
      | false =>
          rw [List.eraseP_cons, hx] at hb
          cases List.mem_cons.mp hb with
          | inl h => rw [h]; exact List.mem_cons_self x _
          | inr h => exact List.mem_cons_of_mem x (ih h)

/-- When the mapped list has no duplicates, the mapping is injective on
members. -/
theorem eq_of_nodup_map {l : List OrderItem} {g : OrderItem → Nat} {a b : OrderItem}
    (hn : (l.map g).Nodup) (ha : a ∈ l) (hb : b ∈ l) (hg : g a = g b) : a = b := by
  induction l with
  | nil => cases ha
  | cons x xs ih =>
      rw [List.map_cons, List.nodup_cons] at hn
      cases List.mem_cons.mp ha with
      | inl h1 =>
          cases List.mem_cons.mp hb with
          | inl h2 => rw [h1, h2]
          | inr h2 =>
              exfalso
              apply hn.1
              rw [← h1, hg]
              exact List.mem_map_of_mem g h2
      | inr h1 =>
          cases List.mem_cons.mp hb with
          | inl h2 =>
              exfalso
              apply hn.1
              rw [← h2, ← hg]
              exact List.mem_map_of_mem g h1
          | inr h2 => exact ih hn.2 h1 h2

/-- C9: `increase` on an item present in the order always succeeds and
increments that item's quantity by exactly 1, with no stock check of any
kind (the conclusion needs no hypothesis about `product.stock`), leaving
every other item in place; `increase` fails with `NotFound` exactly when
the looked-up item is absent, and then leaves the order unchanged. -/
theorem increase_spec (o : Order) (pk : Nat) (it : OrderItem)
    (hfind : o.items.find? (fun i => i.pk == pk) = some it) :
    (increase o pk).2 = none ∧
    (increase o pk).1.items.length = o.items.length ∧
    { it with quantity := it.quantity + 1 } ∈ (increase o pk).1.items ∧
    (∀ i ∈ o.items, i.pk ≠ pk → i ∈ (increase o pk).1.items) ∧
    (∀ (o2 : Order) (pk2 : Nat),
      ((increase o2 pk2).2 = some CartError.NotFound
        ↔ o2.items.find? (fun i => i.pk == pk2) = none) ∧
      ((increase o2 pk2).2 = some CartError.NotFound → (increase o2 pk2).1 = o2)) := by
  have hm : it ∈ o.items := mem_of_find?_hit hfind
  have hp : (it.pk == pk) = true := pred_of_find?_hit hfind
  refine ⟨?_, ?_, ?_, ?_, ?_⟩
  · unfold increase; rw [hfind]
  · unfold increase; rw [hfind]; simp
  · unfold increase; rw [hfind]
    simp only
    have := List.mem_map_of_mem
      (fun i => if i.pk == pk then { i with quantity := i.quantity + 1 } else i) hm
    simpa [hp] using this
  · intro i hi hne
    unfold increase; rw [hfind]
    simp only
    have := List.mem_map_of_mem
      (fun j => if j.pk == pk then { j with quantity := j.quantity + 1 } else j) hi
    have hif : (i.pk == pk) = false := by simp [hne]
    simpa [hif] using this
  · intro o2 pk2
    unfold increase
    cases h2 : o2.items.find? (fun i => i.pk == pk2) with
    | none => simp
    | some x => simp

/-- Witness for C9: in an order holding one item of pk 1 with quantity 10
(equal to the whole stock of its product), `increase` succeeds anyway and
bumps the quantity to 11. -/
theorem increase_spec_witness :
    (Order.items ⟨[⟨1, ⟨100, 10⟩, 10, 0, 0⟩], none, false, none⟩).find?
        (fun i => i.pk == 1) = some ⟨1, ⟨100, 10⟩, 10, 0, 0⟩ ∧
    ((increase ⟨[⟨1, ⟨100, 10⟩, 10, 0, 0⟩], none, false, none⟩ 1).2 = none ∧
     (increase ⟨[⟨1, ⟨100, 10⟩, 10, 0, 0⟩], none, false, none⟩ 1).1.items.length
        = (Order.items ⟨[⟨1, ⟨100, 10⟩, 10, 0, 0⟩], none, false, none⟩).length ∧
     (⟨1, ⟨100, 10⟩, 11, 0, 0⟩ : OrderItem)
        ∈ (increase ⟨[⟨1, ⟨100, 10⟩, 10, 0, 0⟩], none, false, none⟩ 1).1.items) :=
  have h := increase_spec ⟨[⟨1, ⟨100, 10⟩, 10, 0, 0⟩], none, false, none⟩ 1
    ⟨1, ⟨100, 10⟩, 10, 0, 0⟩ (by decide)
  ⟨by decide, h.1, h.2.1, h.2.2.1⟩

/-- C2: `decrease` on an item present in the order succeeds; when the
item's quantity was 1 (so the decremented quantity is 0) the item is
deleted in the same operation and the order's item count drops by exactly
1; when the quantity was at least 2 the count is unchanged and the item
survives with quantity decremented by 1; every other item is untouched;
and no item with quantity 0 ever exists afterwards. -/
theorem decrease_spec (o : Order) (pk : Nat) (it : OrderItem)
    (hfind : o.items.find? (fun i => i.pk == pk) = some it)
    (hinv : ∀ i ∈ o.items, 1 ≤ i.quantity)
    (hnodup : (o.items.map OrderItem.pk).Nodup) :
    (decrease o pk).2 = none ∧
    (it.quantity = 1 → (decrease o pk).1.items.length + 1 = o.items.length) ∧
    (2 ≤ it.quantity →
      ((decrease o pk).1.items.length = o.items.length ∧
       { it with quantity := it.quantity - 1 } ∈ (decrease o pk).1.items)) ∧
    (∀ i ∈ o.items, i.pk ≠ pk → i ∈ (decrease o pk).1.items) ∧
    (∀ i ∈ (decrease o pk).1.items, 1 ≤ i.quantity) := by
  have hm : it ∈ o.items := mem_of_find?_hit hfind
  have hp : (it.pk == pk) = true := pred_of_find?_hit hfind
  have hppk : it.pk = pk := by simpa using hp
  have hq1 : 1 ≤ it.quantity := hinv it hm
  by_cases hq : it.quantity = 1
  · have hd : decrease o pk
        = ({ o with items := o.items.eraseP (fun i => i.pk == pk) }, none) := by
      unfold decrease; rw [hfind]; simp [hq]
    refine ⟨by rw [hd], ?_, ?_, ?_, ?_⟩
    · intro _
      rw [hd]
      exact length_eraseP_hit hm hp
    · intro h2; omega
    · intro i hi hne
      rw [hd]
      exact mem_eraseP_of_pred_false hi (by simp [hne])
    · intro j hj
      rw [hd] at hj
      exact hinv j (mem_of_mem_eraseP_list hj)
  · have hge2 : 2 ≤ it.quantity := by omega
    have hcond : (it.quantity - 1 == 0) = false := by simp; omega
    have hd : decrease o pk
        = ({ o with items := (o.items.map
              (fun i => if i.pk == pk then { i with quantity := i.quantity - 1 } else i)) },
           none) := by
      unfold decrease; rw [hfind]; simp [hcond]
    refine ⟨by rw [hd], ?_, ?_, ?_, ?_⟩
    · intro h1; omega
    · intro _
      constructor
      · rw [hd]; simp
      · rw [hd]
        have := List.mem_map_of_mem
          (fun i => if i.pk == pk then { i with quantity := i.quantity - 1 } else i) hm
        simpa [hp] using this
    · intro i hi hne
      rw [hd]
      have := List.mem_map_of_mem
        (fun j => if j.pk == pk then { j with quantity := j.quantity - 1 } else j) hi
      have hif : (i.pk == pk) = false := by simp [hne]
      simpa [hif] using this
    · intro j hj
      rw [hd] at hj
      simp only [List.mem_map] at hj
      obtain ⟨i, hi, hfi⟩ := hj
      by_cases hipk : (i.pk == pk) = true
      · have hieq : i = it := by
          apply eq_of_nodup_map hnodup hi hm
          have : i.pk = pk := by simpa using hipk
          rw [this, hppk]
        rw [hieq] at hfi
        rw [hp] at hfi
        simp at hfi
        rw [← hfi]
        simp
        omega
      · have hif : (i.pk == pk) = false := by simpa using hipk
        rw [hif] at hfi
        simp at hfi
        rw [← hfi]
        exact hinv i hi

/-- The two order items used by the C2 witness: pk 1 with quantity 1 and
pk 2 with quantity 3. -/
def witnessItemA : OrderItem := ⟨1, witnessProduct, 1, 0, 0⟩

/-- Second item of the C2 witness order. -/
def witnessItemB : OrderItem := ⟨2, witnessProduct, 3, 0, 0⟩

/-- The C2 witness order: two items, no delivery, not yet placed. -/
def witnessOrder : Order := ⟨[witnessItemA, witnessItemB], none, false, none⟩

/-- Witness for C2: decreasing the quantity-1 item of pk 1 deletes it and
shrinks the order from two items to one, leaving the pk-2 item alone. -/
theorem decrease_spec_witness :
    (witnessOrder.items.find? (fun i => i.pk == 1) = some witnessItemA ∧
     (∀ i ∈ witnessOrder.items, 1 ≤ i.quantity) ∧
     (witnessOrder.items.map OrderItem.pk).Nodup) ∧
    ((decrease witnessOrder 1).2 = none ∧
     (witnessItemA.quantity = 1 →
        (decrease witnessOrder 1).1.items.length + 1 = witnessOrder.items.length) ∧
     (2 ≤ witnessItemA.quantity →
        ((decrease witnessOrder 1).1.items.length = witnessOrder.items.length ∧
         { witnessItemA with quantity := witnessItemA.quantity - 1 }
            ∈ (decrease witnessOrder 1).1.items)) ∧
     (∀ i ∈ witnessOrder.items, i.pk ≠ 1 → i ∈ (decrease witnessOrder 1).1.items) ∧
     (∀ i ∈ (decrease witnessOrder 1).1.items, 1 ≤ i.quantity)) :=
  ⟨⟨by decide, by decide, by decide⟩,
   decrease_spec witnessOrder 1 witnessItemA (by decide) (by decide) (by decide)⟩

/-- C8: every successful `add` appends a brand-new item at the end of the
order's collection — the previous items (and hence any existing identical
product/colour/size entry) are all retained unchanged, no quantities are
merged, and the item count grows by exactly 1. -/
theorem add_appends_new_item (o : Order) (p : Product) (c s : Nat) (q : Int) (pk : Nat)
    (hq : 1 ≤ q) (hstock : q ≤ p.stock) :
    (addToCart o p c s q pk).2 = none ∧
    (addToCart o p c s q pk).1.items = o.items ++ [⟨pk, p, q.toNat, c, s⟩] ∧
    (addToCart o p c s q pk).1.items.length = o.items.length + 1 ∧
    (∀ i ∈ o.items, i ∈ (addToCart o p c s q pk).1.items) := by
  have h1 : ¬ q < 1 := by omega
  have h2 : ¬ p.stock < q := by omega
  unfold addToCart
  simp [h1, h2]
  intro i hi
  exact Or.inl hi

/-- Witness for C8: adding quantity 2 of the witness product (colour 0,
size 0) to the witness order, which already holds an identical
product/colour/size item, still appends a new third item. -/
theorem add_appends_new_item_witness :
    ((1 : Int) ≤ 2 ∧ (2 : Int) ≤ witnessProduct.stock) ∧
    ((addToCart witnessOrder witnessProduct 0 0 2 3).2 = none ∧
     (addToCart witnessOrder witnessProduct 0 0 2 3).1.items
        = witnessOrder.items ++ [⟨3, witnessProduct, Int.toNat 2, 0, 0⟩] ∧
     (addToCart witnessOrder witnessProduct 0 0 2 3).1.items.length
        = witnessOrder.items.length + 1 ∧
     (∀ i ∈ witnessOrder.items, i ∈ (addToCart witnessOrder witnessProduct 0 0 2 3).1.items)) :=
  ⟨⟨by decide, by decide⟩,
   add_appends_new_item witnessOrder witnessProduct 0 0 2 3 (by decide) (by decide)⟩

/-- C10: the stock check of `add` compares only the single requested
quantity with `product.stock`: two successive adds of quantity 5 for a
stock-5 product both succeed, after which the order holds a total
quantity of 10 of that product — more than its stock. -/
theorem stock_check_ignores_existing_items :
    (5 : Int) ≤ witnessProduct.stock ∧
    (addToCart emptyOrder witnessProduct 0 0 5 1).2 = none ∧
    (addToCart (addToCart emptyOrder witnessProduct 0 0 5 1).1 witnessProduct 0 0 5 2).2
      = none ∧
    witnessProduct.stock <
      ((addToCart (addToCart emptyOrder witnessProduct 0 0 5 1).1
          witnessProduct 0 0 5 2).1.items.map
        (fun i => if i.product = witnessProduct then (i.quantity : Int) else 0)).sum := by
  decide

/-- Validation outcome of a single `ProductForm` field. -/
inductive FormError where
  | Required
deriving Repr, DecidableEq

/-- The `price` handling of `staff.forms.ProductForm` over
`Product.price = models.IntegerField(default=0)` from
`src/cart/models.py`: the submitted value is required and any integer is
accepted — neither `src/staff/forms.py` nor the model declares a
`min_value`, a validator, or any sign check. -/
def productFormCleanPrice : Option Int → Except FormError Int
  | none => .error .Required
  | some v => .ok v

/-- Counterexample to C6: submitting the negative price -100 through the
product form succeeds — nothing in the code fails with `InvalidAmount`
(no such error exists in the source). -/
theorem negative_price_accepted :
    productFormCleanPrice (some (-100)) = Except.ok (-100) := rfl

/-- C6 amended: the product form accepts every integer price, negative
ones included — there is no `InvalidAmount` check anywhere — and a
negative price propagates into a negative order subtotal, so Money
amounts in the system are not guaranteed non-negative. -/
theorem product_form_accepts_any_price (v : Int) :
    productFormCleanPrice (some v) = Except.ok v ∧
    Order.get_raw_subtotal ⟨[⟨1, ⟨v, 5⟩, 1, 0, 0⟩], none, false, none⟩ = v := by
  refine ⟨rfl, ?_⟩
  unfold Order.get_raw_subtotal
  simp [OrderItem.get_raw_total_item_price]

/-- A placed order referencing the Standard delivery tier (cost 500) and
holding one unit of the witness product (price 100). -/
def placedDeliveryOrder : Order :=
  ⟨[⟨1, witnessProduct, 1, 0, 0⟩], some ⟨"Standard", 500⟩, true, some 10⟩

/-- Counterexample to C7: on an already-placed order, editing the
referenced delivery option's cost from 500 to 600 changes the recomputed
`get_raw_total` from 600 to 700 — the historical total is not
preserved. -/
theorem delivery_cost_change_alters_placed_total :
    placedDeliveryOrder.ordered = true ∧
    placedDeliveryOrder.get_raw_total = 600 ∧
    Order.get_raw_total { placedDeliveryOrder with delivery := some ⟨"Standard", 600⟩ }
      = 700 := by
  refine ⟨rfl, by decide, by decide⟩

/-- C7 amended: `get_raw_total` always recomputes from the delivery
option's current cost — no snapshot is taken at placement time — so for
every placed order with a delivery attached, setting the delivery's cost
to `c` makes the total `get_raw_subtotal + c`. -/
theorem raw_total_tracks_current_delivery_cost (o : Order) (d : Delivery) (c : Int)
    (hplaced : o.ordered = true) (hdel : o.delivery = some d) :
    Order.get_raw_total { o with delivery := some { d with cost := c } }
      = o.get_raw_subtotal + c := by
  unfold Order.get_raw_total
  simp [Order.get_raw_subtotal]

/-- Witness for the amended C7: applying the cost edit 600 to the placed
witness order yields subtotal 100 plus the new cost. -/
theorem raw_total_tracks_current_delivery_cost_witness :
    (placedDeliveryOrder.ordered = true ∧
     placedDeliveryOrder.delivery = some ⟨"Standard", 500⟩) ∧
    Order.get_raw_total
        { placedDeliveryOrder with
            delivery := some { (⟨"Standard", 500⟩ : Delivery) with cost := 600 } }
      = placedDeliveryOrder.get_raw_subtotal + 600 :=
  ⟨⟨rfl, rfl⟩,
   raw_total_tracks_current_delivery_cost placedDeliveryOrder ⟨"Standard", 500⟩ 600 rfl rfl⟩

/-- Witness for C5: placing the fresh empty order at time 10 succeeds and
a second placement at time 20 reports `AlreadyPlaced`, keeping
`ordered_date = 10`. -/
theorem place_spec_witness :
    emptyOrder.ordered = false ∧
    ((place emptyOrder 10).2 = none ∧
     (place emptyOrder 10).1.ordered = true ∧
     (place emptyOrder 10).1.ordered_date = some 10 ∧
     (place (place emptyOrder 10).1 20).2 = some CartError.AlreadyPlaced ∧
     (place (place emptyOrder 10).1 20).1.ordered_date = some 10) :=
  ⟨rfl, place_spec emptyOrder 10 20 rfl⟩
